import Mathlib

/-!
Verification development for the parallel Monte-Carlo pi estimator of the
notebook `04-Parallel-Programming-with-Python.ipynb`.

The notebook contains two pi-estimation pipelines:

* threading version:
    `samples = int(12e6/nt)`; `nt` threads, thread `i` runs
    `calcInside(samples, i)` which does `random.seed(rank)` and counts, over
    `samples` draws of `x = random.random(); y = random.random()`, how often
    `x*x + y*y < 1`; hits accumulate into a shared counter under a lock; the
    final value printed is `(4.0*inside)/(1.0*samples*nt)`.

* multiprocessing version:
    `nsamples = int(12e6/processes)`; `pool.map(calcInside, range(processes))`
    where `calcInside(rank)` seeds with `rank`, counts hits in a local counter
    and returns `(4.0*inside)/nsamples`; the printed value is
    `np.mean(result)`.

The embedding below is shallow: the pseudo-random generator is modelled as an
abstract deterministic stream `g : ℕ → ℕ → ℚ` mapping a seed and a draw index
to the drawn value (the `k`-th call of `random.random()` after `random.seed s`
returns `g s k`), and Python floats are modelled by exact rationals `ℚ`.
Integer division `int(a/b)` on non-negative operands is `ℕ` division.
-/

namespace HpcPi

/-- A per-worker work item as the notebook constructs it: a sample count and
the seed passed to `random.seed` (the worker's rank). -/
structure SamplingTask where
  sampleCount : ℕ
  seed : ℕ
  deriving Repr, DecidableEq

/-- The result a worker hands back: its local hit counter and the number of
samples it drew. -/
structure TaskResult where
  hitCount : ℕ
  sampleCount : ℕ
  deriving Repr, DecidableEq

/-- The notebook's partitioning step: every one of the `workerCount` workers
receives `int(totalSamples/workerCount)` samples (plain integer division, no
remainder redistribution) and seed equal to its index
(`args=(samples,i) for i in range(nt)` / `pool.map(calcInside, range(processes))`). -/
def plan (totalSamples workerCount : ℕ) : List SamplingTask :=
  (List.range workerCount).map (fun i => { sampleCount := totalSamples / workerCount, seed := i })

/-- Whether the `i`-th drawn pair after seeding with `seed` lands strictly
inside the unit circle: `x = g seed (2*i)`, `y = g seed (2*i+1)`,
test `x*x + y*y < 1`. -/
def hitAt (g : ℕ → ℕ → ℚ) (seed i : ℕ) : Bool :=
  decide (g seed (2 * i) * g seed (2 * i) + g seed (2 * i + 1) * g seed (2 * i + 1) < 1)

/-- The sampling loop of `calcInside(nsamples, rank)`: seed with `rank`, draw
`n` coordinate pairs, increment the counter once per pair with
`x*x + y*y < 1`. -/
def calcInside (g : ℕ → ℕ → ℚ) (n : ℕ) (rank : ℕ) : ℕ :=
  (List.range n).foldl (fun inside i => if hitAt g rank i then inside + 1 else inside) 0

/-- Run one task: the produced `TaskResult` pairs the hit count with the
task's sample count. -/
def runTask (g : ℕ → ℕ → ℚ) (t : SamplingTask) : TaskResult :=
  { hitCount := calcInside g t.sampleCount t.seed, sampleCount := t.sampleCount }

/-- Run every task of the notebook's plan. -/
def runPlan (g : ℕ → ℕ → ℚ) (totalSamples workerCount : ℕ) : List TaskResult :=
  (plan totalSamples workerCount).map (runTask g)

/-- Aggregated hit total: sum of the workers' hit counters. -/
def totalHits (rs : List TaskResult) : ℕ :=
  (rs.map TaskResult.hitCount).sum

/-- Aggregated sample total: sum of the workers' sample counts. -/
def totalDrawn (rs : List TaskResult) : ℕ :=
  (rs.map TaskResult.sampleCount).sum

/-- The aggregate estimate `4.0 * totalHits / totalSamples` over a list of
task results. -/
def aggValue (rs : List TaskResult) : ℚ :=
  (4 * totalHits rs : ℚ) / (totalDrawn rs : ℚ)

/-- The sum of the per-worker hit counters in the threading example
(`inside` after all threads joined). -/
def insideSum (g : ℕ → ℕ → ℚ) (totalSamples workerCount : ℕ) : ℕ :=
  ((List.range workerCount).map (fun i => calcInside g (totalSamples / workerCount) i)).sum

/-- The threading example's printed value
`(4.0*inside)/(1.0*samples*nt)`. -/
def threadingValue (g : ℕ → ℕ → ℚ) (totalSamples workerCount : ℕ) : ℚ :=
  (4 * insideSum g totalSamples workerCount : ℚ) /
    ((totalSamples / workerCount : ℕ) * (workerCount : ℚ))

/-- One multiprocessing worker's returned value `(4.0*inside)/nsamples`. -/
def mpWorker (g : ℕ → ℕ → ℚ) (nsamples rank : ℕ) : ℚ :=
  (4 * calcInside g nsamples rank : ℚ) / (nsamples : ℚ)

/-- `np.mean` of a list of rationals: sum divided by length. -/
def npMean (l : List ℚ) : ℚ :=
  l.sum / (l.length : ℚ)

/-- The multiprocessing example's printed value
`np.mean(pool.map(calcInside, range(processes)))` with
`nsamples = int(totalSamples/processes)`. -/
def mpValue (g : ℕ → ℕ → ℚ) (totalSamples processes : ℕ) : ℚ :=
  npMean ((List.range processes).map (fun i => mpWorker g (totalSamples / processes) i))

/-- The threading example's main block over arbitrary integer inputs, with its
fallibility made explicit. `samples = int(totalSamples/workerCount)` truncates
toward zero as Python's `int()` does on a float quotient; `range` of a
negative count is empty. The block performs no input validation: the only
failures it can produce are Python `ZeroDivisionError`s, either at
`int(totalSamples/workerCount)` when `workerCount = 0`, or at the final print
when the denominator `1.0*samples*nt` is zero — both after (or instead of)
ordinary dispatch, never an `InvalidArgument` check. -/
def estimateEntry (g : ℕ → ℕ → ℚ) (totalSamples workerCount : ℤ) : Except String ℚ :=
  if workerCount = 0 then .error "ZeroDivisionError"
  else
    let samples : ℤ := Int.tdiv totalSamples workerCount
    let inside : ℕ :=
      ((List.range workerCount.toNat).map (fun i => calcInside g samples.toNat i)).sum
    if (samples : ℚ) * (workerCount : ℚ) = 0 then .error "ZeroDivisionError"
    else .ok ((4 * inside : ℚ) / ((samples : ℚ) * (workerCount : ℚ)))

/-- The all-zero random stream (a legitimate abstract stream: every draw is
`0 ∈ [0,1)`). -/
def gZero : ℕ → ℕ → ℚ := fun _ _ => 0

/-- A stream whose every pair is `(3/5, 4/5)`, which lies exactly on the unit
circle: `(3/5)² + (4/5)² = 1`. Both coordinates are in `[0,1)`. -/
def gBoundary : ℕ → ℕ → ℚ := fun _ k => if k % 2 = 0 then 3 / 5 else 4 / 5

/-! ## Helper lemmas -/

/-- A count-if fold starting at `k` adds `countP` of the list to `k`. -/
lemma foldl_count {α : Type} (p : α → Bool) :
    ∀ (l : List α) (k : ℕ),
      l.foldl (fun acc i => if p i then acc + 1 else acc) k = k + l.countP p := by
  intro l
  induction l with
  | nil => intro k; simp
  | cons a t ih =>
    intro k
    simp only [List.foldl_cons, List.countP_cons, ih]
    cases h : p a
    · simp [h]
    · simp [h]
      omega

/-- The sampling loop is the number of indices below `n` whose pair hits. -/
lemma calcInside_eq_countP (g : ℕ → ℕ → ℚ) (n r : ℕ) :
    calcInside g n r = (List.range n).countP (fun i => hitAt g r i) := by
  simp [calcInside, foldl_count]

/-- The hit counter never exceeds the number of draws. -/
lemma calcInside_le (g : ℕ → ℕ → ℚ) (n r : ℕ) : calcInside g n r ≤ n := by
  calc calcInside g n r = (List.range n).countP (fun i => hitAt g r i) :=
        calcInside_eq_countP g n r
    _ ≤ (List.range n).length := List.countP_le_length _
    _ = n := List.length_range n

/-- Zero draws produce zero hits. -/
lemma calcInside_zero (g : ℕ → ℕ → ℚ) (r : ℕ) : calcInside g 0 r = 0 := rfl

/-- Every task of the notebook's plan gets the same `int(N/W)` sample count. -/
lemma plan_map_sampleCount (N W : ℕ) :
    (plan N W).map SamplingTask.sampleCount = List.replicate W (N / W) := by
  simp [plan, List.map_map, Function.comp_def, List.map_const']

/-- The seed of the task at index `i` is `i`. -/
lemma plan_map_seed (N W : ℕ) :
    (plan N W).map SamplingTask.seed = List.range W := by
  simp [plan, List.map_map, Function.comp_def]

/-- The aggregated hit total of a run is the threading example's `inside`. -/
lemma totalHits_runPlan (g : ℕ → ℕ → ℚ) (N W : ℕ) :
    totalHits (runPlan g N W) = insideSum g N W := by
  simp [totalHits, runPlan, insideSum, plan, runTask, List.map_map, Function.comp_def]

/-- The aggregated sample total of a run is `W * (N / W)`. -/
lemma totalDrawn_runPlan (g : ℕ → ℕ → ℚ) (N W : ℕ) :
    totalDrawn (runPlan g N W) = W * (N / W) := by
  simp [totalDrawn, runPlan, plan, runTask, List.map_map, Function.comp_def,
    List.map_const', List.sum_replicate, smul_eq_mul]

/-- Dividing each summand by a constant divides the sum (also for a zero
denominator, where both sides vanish). -/
lemma sum_map_div {α : Type} (l : List α) (f : α → ℚ) (c : ℚ) :
    (l.map (fun x => f x / c)).sum = (l.map f).sum / c := by
  induction l with
  | nil => simp
  | cons a t ih => simp [ih, add_div]

/-- Pulling the constant factor `4` (and the cast to `ℚ`) out of a sum of
naturals. -/
lemma sum_map_four_mul {α : Type} (l : List α) (c : α → ℕ) :
    (l.map (fun x => (4 : ℚ) * (c x : ℚ))).sum = 4 * (((l.map c).sum : ℕ) : ℚ) := by
  induction l with
  | nil => simp
  | cons a t ih =>
    simp only [List.map_cons, List.sum_cons, ih]
    push_cast
    ring

/-- The threading example's `inside` is at most the total number of draws. -/
lemma insideSum_le (g : ℕ → ℕ → ℚ) (N W : ℕ) :
    insideSum g N W ≤ W * (N / W) := by
  unfold insideSum
  calc ((List.range W).map (fun i => calcInside g (N / W) i)).sum
      ≤ ((List.range W).map (fun _ => N / W)).sum :=
        List.sum_le_sum (fun i _ => calcInside_le g (N / W) i)
    _ = W * (N / W) := by simp [List.map_const', List.sum_replicate, smul_eq_mul]

/-- The multiprocessing mean collapses to the pooled ratio
`4 * inside / (nsamples * processes)`. -/
lemma mpValue_eq_pooled (g : ℕ → ℕ → ℚ) (N W : ℕ) :
    mpValue g N W =
      (4 * insideSum g N W : ℚ) / ((N / W : ℕ) * (W : ℚ)) := by
  unfold mpValue npMean mpWorker insideSum
  rw [sum_map_div (List.range W) (fun i => (4 : ℚ) * ((calcInside g (N / W) i : ℕ) : ℚ))
      ((N / W : ℕ) : ℚ)]
  rw [sum_map_four_mul (List.range W) (fun i => calcInside g (N / W) i)]
  rw [List.length_map, List.length_range, div_div]

/-- When the per-worker allocation truncates to zero, no worker counts any
hit. -/
lemma insideSum_of_div_zero (g : ℕ → ℕ → ℚ) (N W : ℕ) (h : N / W = 0) :
    insideSum g N W = 0 := by
  unfold insideSum
  rw [h]
  have hz : ∀ l : List ℕ, (l.map (fun i => calcInside g 0 i)).sum = 0 := by
    intro l
    induction l with
    | nil => rfl
    | cons a t ih => simp [calcInside_zero, ih]
  exact hz _

/-- Bounds for the ratio `4 * H / S` when `H ≤ S` (with the degenerate
`S = 0` case, where the rational quotient is `0`). -/
lemma ratio_bounds (H S : ℕ) (h : H ≤ S) :
    0 ≤ (4 * H : ℚ) / (S : ℚ) ∧ (4 * H : ℚ) / (S : ℚ) ≤ 4 := by
  rcases Nat.eq_zero_or_pos S with hS | hS
  · subst hS
    interval_cases H
    simp
  · have hq : (H : ℚ) ≤ (S : ℚ) := by exact_mod_cast h
    have hSq : (0 : ℚ) < (S : ℚ) := by exact_mod_cast hS
    constructor
    · positivity
    · rw [div_le_iff₀ hSq]
      nlinarith

/-! ## Claim theorems -/

/-- C1 (counterexample): the partition step does not preserve the sample
budget: for totalSamples = 10 and workerCount = 4 the per-worker sample
counts sum to 8, not 10. -/
theorem claim1_partition_sum_counterexample :
    ¬ (((plan 10 4).map SamplingTask.sampleCount).sum = 10) := by decide

/-- C1 (amended): for every totalSamples ≥ 1 and workerCount ≥ 1, the
per-worker sample counts of the partition step sum to
`workerCount * (totalSamples / workerCount)` — the integer-division
truncation loses up to `workerCount - 1` samples — and the sum equals
totalSamples exactly if and only if workerCount divides totalSamples. -/
theorem claim1_partition_sum (N W : ℕ) (_hN : 1 ≤ N) (_hW : 1 ≤ W) :
    ((plan N W).map SamplingTask.sampleCount).sum = W * (N / W) ∧
    (((plan N W).map SamplingTask.sampleCount).sum = N ↔ W ∣ N) := by
  have hs : ((plan N W).map SamplingTask.sampleCount).sum = W * (N / W) := by
    rw [plan_map_sampleCount]
    simp [List.sum_replicate, smul_eq_mul]
  refine ⟨hs, ?_⟩
  rw [hs]
  constructor
  · intro h
    exact ⟨N / W, h.symm⟩
  · intro h
    exact Nat.mul_div_cancel' h

/-- C1 (witness): the amended statement instantiated at totalSamples = 10,
workerCount = 4. -/
theorem claim1_partition_sum_witness :
    1 ≤ 10 ∧ 1 ≤ 4 ∧
      (((plan 10 4).map SamplingTask.sampleCount).sum = 4 * (10 / 4) ∧
        (((plan 10 4).map SamplingTask.sampleCount).sum = 10 ↔ 4 ∣ 10)) :=
  ⟨by decide, by decide, claim1_partition_sum 10 4 (by decide) (by decide)⟩

/-- C2 (counterexample): `plan 10 4` does not produce the sample counts
`[3, 3, 2, 2]` demanded by the remainder-distribution policy; the code
gives every worker `10 / 4 = 2` samples. -/
theorem claim2_remainder_policy_counterexample :
    ¬ ((plan 10 4).map SamplingTask.sampleCount = [3, 3, 2, 2]) := by decide

/-- C2 (amended): every worker receives the same base allocation
`totalSamples / workerCount`; no worker receives an extra sample (the
remainder is silently dropped, not distributed to the first
`totalSamples mod workerCount` workers). In particular `plan 10 4` yields
`[2, 2, 2, 2]`. -/
theorem claim2_remainder_policy (N W : ℕ) (_hW : 1 ≤ W) :
    (plan N W).map SamplingTask.sampleCount = List.replicate W (N / W) :=
  plan_map_sampleCount N W

/-- C2 (witness): the amended statement at totalSamples = 10,
workerCount = 4, where the counts are `[2, 2, 2, 2]`. -/
theorem claim2_remainder_policy_witness :
    1 ≤ 4 ∧ (plan 10 4).map SamplingTask.sampleCount = [2, 2, 2, 2] :=
  ⟨by decide, (claim2_remainder_policy 10 4 (by decide)).trans (by decide)⟩

/-- C3: the worker at index i receives seed exactly i: the seed sequence of
`plan N W` is `[0, 1, ..., W-1]` (so two calls with identical arguments give
the identical sequence — `plan` is a pure function — and the seeds are
pairwise distinct). -/
theorem claim3_seed_assignment (N W i : ℕ) (_hW : 1 ≤ W) (hi : i < W) :
    (plan N W).map SamplingTask.seed = List.range W ∧
    ((plan N W).map SamplingTask.seed).Nodup ∧
    ((plan N W).map SamplingTask.seed)[i]? = some i := by
  refine ⟨plan_map_seed N W, ?_, ?_⟩
  · rw [plan_map_seed]
    exact List.nodup_range W
  · rw [plan_map_seed]
    simp [List.getElem?_range hi]

/-- C3 (witness): the seed sequence of `plan 10 4` is `[0, 1, 2, 3]`,
without repetition, and worker 2 has seed 2. -/
theorem claim3_seed_assignment_witness :
    1 ≤ 4 ∧ 2 < 4 ∧
      ((plan 10 4).map SamplingTask.seed = List.range 4 ∧
        ((plan 10 4).map SamplingTask.seed).Nodup ∧
        ((plan 10 4).map SamplingTask.seed)[2]? = some 2) :=
  ⟨by decide, by decide, claim3_seed_assignment 10 4 2 (by decide) (by decide)⟩

/-- C4: the sampling function draws exactly n coordinate pairs
(`x = g s (2*i)`, `y = g s (2*i+1)` for i < n) and its hit count is exactly
the number of drawn pairs satisfying the strict inequality
`x*x + y*y < 1`; a pair lying exactly on the boundary is not counted, as the
stream `gBoundary`, whose every pair is `(3/5, 4/5)` with
`(3/5)² + (4/5)² = 1`, shows: it produces zero hits for every n. -/
theorem claim4_sampling_count (g : ℕ → ℕ → ℚ) (n s : ℕ) :
    calcInside g n s =
      (List.range n).countP
        (fun i => decide (g s (2 * i) * g s (2 * i) +
          g s (2 * i + 1) * g s (2 * i + 1) < 1)) ∧
    calcInside gBoundary n s = 0 := by
  constructor
  · simp only [calcInside_eq_countP, hitAt]
  · rw [calcInside_eq_countP]
    have key : ∀ i : ℕ, hitAt gBoundary s i = false := by
      intro i
      have h1 : gBoundary s (2 * i) = 3 / 5 := by
        simp [gBoundary, Nat.mul_mod_right]
      have h2 : gBoundary s (2 * i + 1) = 4 / 5 := by
        have hm : (2 * i + 1) % 2 = 1 := by omega
        simp [gBoundary, hm]
      simp only [hitAt, h1, h2]
      norm_num
    simp [key]

/-- C5: in exact arithmetic both pipelines return the single global ratio
`4.0 * totalHits / totalSamples` over the per-worker results (for the
multiprocessing pipeline the mean of per-worker ratios collapses to this
global ratio because all per-worker sample counts are equal). -/
theorem claim5_aggregate_formula (g : ℕ → ℕ → ℚ) (N W : ℕ) :
    threadingValue g N W =
      (4 * totalHits (runPlan g N W) : ℚ) / (totalDrawn (runPlan g N W) : ℚ) ∧
    mpValue g N W =
      (4 * totalHits (runPlan g N W) : ℚ) / (totalDrawn (runPlan g N W) : ℚ) := by
  have hH := totalHits_runPlan g N W
  have hD := totalDrawn_runPlan g N W
  constructor
  · rw [hH, hD, threadingValue]
    push_cast
    ring
  · rw [hH, hD, mpValue_eq_pooled]
    push_cast
    ring

/-- C6: aggregation is order independent: permuting the task results leaves
totalHits, the sample total, and the aggregate value unchanged. -/
theorem claim6_perm_invariance (rs rs' : List TaskResult) (h : rs.Perm rs') :
    totalHits rs = totalHits rs' ∧ totalDrawn rs = totalDrawn rs' ∧
      aggValue rs = aggValue rs' := by
  have h1 : totalHits rs = totalHits rs' := (h.map TaskResult.hitCount).sum_eq
  have h2 : totalDrawn rs = totalDrawn rs' := (h.map TaskResult.sampleCount).sum_eq
  exact ⟨h1, h2, by rw [aggValue, aggValue, h1, h2]⟩

/-- C6 (witness): the invariance applied to a concrete two-element
permutation. -/
theorem claim6_perm_invariance_witness :
    (([⟨1, 2⟩, ⟨0, 3⟩] : List TaskResult).Perm [⟨0, 3⟩, ⟨1, 2⟩]) ∧
      (totalHits [⟨1, 2⟩, ⟨0, 3⟩] = totalHits [⟨0, 3⟩, ⟨1, 2⟩] ∧
        totalDrawn [⟨1, 2⟩, ⟨0, 3⟩] = totalDrawn [⟨0, 3⟩, ⟨1, 2⟩] ∧
        aggValue [⟨1, 2⟩, ⟨0, 3⟩] = aggValue [⟨0, 3⟩, ⟨1, 2⟩]) :=
  ⟨by decide, claim6_perm_invariance _ _ (by decide)⟩

/-- C7 (counterexample): with totalSamples = 1000 ≥ 1000 and
workerCount = 1001 ≥ 1 the per-worker allocation truncates to 0, no samples
are drawn, and the threading pipeline's value is 0 (the Python code in fact
stops with `ZeroDivisionError` at the final print), so the estimate is not
strictly greater than 0. -/
theorem claim7_bounded_estimate_counterexample :
    1000 ≤ 1000 ∧ 1 ≤ 1001 ∧ ¬ (0 < threadingValue gZero 1000 1001) := by
  refine ⟨le_refl _, by norm_num, ?_⟩
  have hs : (1000 : ℕ) / 1001 = 0 := Nat.div_eq_of_lt (by norm_num)
  have hin : insideSum gZero 1000 1001 = 0 := insideSum_of_div_zero gZero 1000 1001 hs
  have hz : threadingValue gZero 1000 1001 = 0 := by
    rw [threadingValue, hin, hs]
    norm_num
  rw [hz]
  norm_num

/-- C7 (amended): for totalSamples ≥ 1000 and workerCount ≥ 1, both
pipelines' estimates satisfy `0 ≤ value ≤ 4` (the lower bound is not strict:
when workerCount exceeds totalSamples no samples are drawn and the value
degenerates to 0, and an adversarial random sequence can produce zero hits). -/
theorem claim7_bounded_estimate (g : ℕ → ℕ → ℚ) (N W : ℕ)
    (_hN : 1000 ≤ N) (_hW : 1 ≤ W) :
    (0 ≤ threadingValue g N W ∧ threadingValue g N W ≤ 4) ∧
      (0 ≤ mpValue g N W ∧ mpValue g N W ≤ 4) := by
  have hle : insideSum g N W ≤ (N / W) * W := by
    rw [Nat.mul_comm]
    exact insideSum_le g N W
  have hb := ratio_bounds (insideSum g N W) ((N / W) * W) hle
  have hcast : (((N / W) * W : ℕ) : ℚ) = ((N / W : ℕ) : ℚ) * (W : ℚ) := by
    push_cast
    ring
  rw [hcast] at hb
  constructor
  · exact ⟨by rw [threadingValue]; exact hb.1, by rw [threadingValue]; exact hb.2⟩
  · rw [mpValue_eq_pooled]
    exact hb

/-- C7 (witness): the amended bounds at totalSamples = 1000, workerCount = 1
with the all-zero stream. -/
theorem claim7_bounded_estimate_witness :
    1000 ≤ 1000 ∧ 1 ≤ 1 ∧
      ((0 ≤ threadingValue gZero 1000 1 ∧ threadingValue gZero 1000 1 ≤ 4) ∧
        (0 ≤ mpValue gZero 1000 1 ∧ mpValue gZero 1000 1 ≤ 4)) :=
  ⟨le_refl _, le_refl _, claim7_bounded_estimate gZero 1000 1 (le_refl _) (le_refl _)⟩

/-- C8 (counterexample): the entry point performs no input validation: at
totalSamples = -5 < 1 with workerCount = 4 it dispatches all four workers
(each drawing zero samples, since `int(-5/4) = -1` and `range(-1)` is empty)
and returns the estimate `-0.0` (the rational 0) instead of failing with
`InvalidArgument`. -/
theorem claim8_no_validation_counterexample :
    (-5 : ℤ) < 1 ∧ estimateEntry gZero (-5) 4 = Except.ok 0 := by
  refine ⟨by norm_num, ?_⟩
  have ht : Int.tdiv (-5 : ℤ) 4 = -1 := by decide
  simp [estimateEntry, ht, calcInside_zero, List.map_const', List.sum_replicate]

/-- C8 (amended): for every totalSamples < 1 and workerCount ≥ 1 the entry
point never reports `InvalidArgument`: it either returns the degenerate
estimate 0 (when the truncated per-worker count is nonzero, i.e. negative) or
fails only at the final division with `ZeroDivisionError`, after dispatching
all workers. -/
theorem claim8_no_validation (g : ℕ → ℕ → ℚ) (t W : ℤ) (ht : t < 1) (hW : 1 ≤ W) :
    estimateEntry g t W = Except.ok 0 ∨
      estimateEntry g t W = Except.error "ZeroDivisionError" := by
  have hW0 : ¬ (W = 0) := by omega
  have hs : Int.tdiv t W ≤ 0 := by
    have h3 : 0 ≤ (-t).tdiv W := Int.tdiv_nonneg (by omega) (by omega)
    have h4 : (-t).tdiv W = -(t.tdiv W) := Int.neg_tdiv t W
    omega
  have hn : (Int.tdiv t W).toNat = 0 := Int.toNat_of_nonpos hs
  by_cases hd : ((Int.tdiv t W : ℤ) : ℚ) * ((W : ℤ) : ℚ) = 0
  · right
    simp [estimateEntry, hW0, hd]
  · left
    simp [estimateEntry, hW0, hd, hn, calcInside_zero, List.map_const',
      List.sum_replicate]

/-- C8 (witness): the amended statement at totalSamples = -5,
workerCount = 4, where a result (the estimate 0) is produced. -/
theorem claim8_no_validation_witness :
    (-5 : ℤ) < 1 ∧ (1 : ℤ) ≤ 4 ∧
      (estimateEntry gZero (-5) 4 = Except.ok 0 ∨
        estimateEntry gZero (-5) 4 = Except.error "ZeroDivisionError") :=
  ⟨by norm_num, by norm_num, claim8_no_validation gZero (-5) 4 (by norm_num) (by norm_num)⟩

/-- C10: in the multiprocessing example every worker is assigned the
identical sample count `int(totalSamples/processes)`, and under this
equal-count allocation the mean of the per-worker ratios equals the pooled
global ratio `4 * (sum of all inside_i) / (nsamples * processes)` — which is
exactly the threading example's aggregation. -/
theorem claim10_mean_equals_pooled (g : ℕ → ℕ → ℚ) (N W : ℕ) :
    ((runPlan g N W).map TaskResult.sampleCount = List.replicate W (N / W)) ∧
      mpValue g N W = (4 * insideSum g N W : ℚ) / ((N / W : ℕ) * (W : ℚ)) ∧
      mpValue g N W = threadingValue g N W := by
  refine ⟨?_, mpValue_eq_pooled g N W, ?_⟩
  · simp [runPlan, runTask, plan, List.map_map, Function.comp_def, List.map_const']
  · rw [threadingValue]
    exact mpValue_eq_pooled g N W

/-- C9: every task result satisfies `0 ≤ hitCount ≤ sampleCount`: the
counter starts at 0 and is incremented at most once per drawn sample. -/
theorem claim9_hit_bound (g : ℕ → ℕ → ℚ) (t : SamplingTask) :
    0 ≤ (runTask g t).hitCount ∧ (runTask g t).hitCount ≤ (runTask g t).sampleCount :=
  ⟨Nat.zero_le _, calcInside_le g t.sampleCount t.seed⟩

end HpcPi
